import Mathlib

/-!
Verification development for the IMS automation checklist tool.

The definitions below are a shallow embedding of the Python sources:
`src/core/excel_processor.py` (extraction), `src/ui/task_completion.py`
(rewrite engine) and `src/config/settings.py` (constants).  Cell values are
modelled by an explicit `Value` type so that the Python truthiness tests
(`if not cell.value`, `if cell.value`) can be rendered faithfully; worksheets
are modelled as a cell function together with a last-row bound and a list of
merged regions.  File system and GUI side effects are outside the model: the
function `saveToExcel` returns `none` exactly when the Python code raises
before reaching `wb.save`, and `some (workbook, filename)` otherwise.
-/

namespace IMS

/-! String primitives.  The Lean core functions on `String` recurse over byte
positions, which the kernel cannot evaluate, so the Python string operations
used by the program are given structural implementations over the character
list of the string. -/

/-- Python `str.upper()` restricted to ASCII text, the only text the program
manipulates. -/
def pyUpper (s : String) : String := ⟨s.data.map Char.toUpper⟩

/-- Python `str.lower()` restricted to ASCII text. -/
def pyLower (s : String) : String := ⟨s.data.map Char.toLower⟩

/-- Whitespace trimming of a character list, auxiliary to `pyTrim`. -/
def trimChars (l : List Char) : List Char :=
  ((l.dropWhile Char.isWhitespace).reverse.dropWhile Char.isWhitespace).reverse

/-- Python `str.strip()` with no arguments. -/
def pyTrim (s : String) : String := ⟨trimChars s.data⟩

/-- Python slice `s[n:]`. -/
def sliceFrom (s : String) (n : Nat) : String := ⟨s.data.drop n⟩

/-- Python `sep.join(parts)`. -/
def pyJoin (sep : String) : List String → String
  | [] => ""
  | [x] => x
  | x :: y :: rest => x ++ sep ++ pyJoin sep (y :: rest)

/-- Digit list of a natural number, auxiliary to `natRepr`; the first argument
is structural fuel (any value at least the digit count works, and `natRepr`
passes the number itself). -/
def natReprAux : Nat → Nat → List Char
  | 0, _ => []
  | _ + 1, 0 => []
  | fuel + 1, n + 1 => natReprAux fuel ((n + 1) / 10) ++ [Char.ofNat (48 + (n + 1) % 10)]

/-- Decimal representation of a natural number, the value of Python `str` on a
nonnegative integer. -/
def natRepr (n : Nat) : String := if n = 0 then "0" else ⟨natReprAux n n⟩

/-- Decimal representation of an integer, the value of Python `str`. -/
def intRepr (i : Int) : String :=
  if i < 0 then "-" ++ natRepr i.natAbs else natRepr i.natAbs

/-- Natural number denoted by a list of decimal digit characters, the value of
Python `int` on the digit substring of a coordinate (Python raises on an empty
digit string; theorems below only use well-formed coordinates). -/
def natOfDigits (l : List Char) : Nat :=
  l.foldl (fun acc c => acc * 10 + (c.toNat - 48)) 0

/-- Value of a nonempty all-digit character list, `none` otherwise, auxiliary
to `pyInt?`. -/
def digitsVal? (l : List Char) : Option Nat :=
  if l ≠ [] ∧ l.all Char.isDigit then some (natOfDigits l) else none

/-- Python `int(s)` on a string: optional surrounding whitespace, optional
sign, then a nonempty digit run; `none` models the `ValueError` raise. -/
def pyInt? (s : String) : Option Int :=
  match trimChars s.data with
  | '-' :: rest => (digitsVal? rest).map fun n => -(n : Int)
  | '+' :: rest => (digitsVal? rest).map fun n => (n : Int)
  | l => (digitsVal? l).map fun n => (n : Int)

/-- Loop of `pySplit`: cut the character list at separator runs, accumulating
the current piece in reverse. -/
def splitAuxChars (sep : Char → Bool) : List Char → List Char → List String
  | [], acc => if acc.isEmpty then [] else [⟨acc.reverse⟩]
  | c :: cs, acc =>
    if sep c then
      if acc.isEmpty then splitAuxChars sep cs []
      else (⟨acc.reverse⟩ : String) :: splitAuxChars sep cs []
    else splitAuxChars sep cs (c :: acc)

/-- Value of a spreadsheet cell or of a lead cell, mirroring the Python values
that can appear (`None`, strings, integers, booleans). -/
inductive Value where
  | vnone : Value
  | vstr (s : String) : Value
  | vint (n : Int) : Value
  | vbool (b : Bool) : Value
deriving DecidableEq, Repr, Inhabited

/-- Python truthiness test on a cell value: `None`, the empty string, numeric
zero and `False` are falsy, everything else truthy. -/
def Value.falsy : Value → Bool
  | .vnone => true
  | .vstr s => s = ""
  | .vint n => n = 0
  | .vbool b => !b

/-- Python `str(...)` applied to a cell value. -/
def Value.pyStr : Value → String
  | .vnone => "None"
  | .vstr s => s
  | .vint n => intRepr n
  | .vbool b => if b then "True" else "False"

/-- Constant `CATEGORY_COLOR` from `src/config/settings.py`. -/
def CATEGORY_COLOR : String := "FFFFFF00"

/-- Constant `DEFAULT_VALUE` from `src/config/settings.py`: the sentinel
recorded for an unfilled input slot. -/
def DEFAULT_VALUE : String := "no input"

/-- Python `str.split()` with no arguments: split on whitespace runs and drop
empty pieces. -/
def pySplit (s : String) : List String :=
  splitAuxChars Char.isWhitespace s.data []

/-- Task record from `src/core/data_models.py`: name, description and the
ordered coordinate-to-value mapping of input slots (a Python dict in insertion
order, modelled as an association list). -/
structure Task where
  name : String
  description : String
  inputs : List (String × String)
deriving DecidableEq, Repr, Inhabited

/-- Category record from `src/core/data_models.py`. -/
structure Category where
  name : String
  tasks : List Task
deriving DecidableEq, Repr, Inhabited

/-- SheetData record from `src/core/data_models.py`. -/
structure SheetData where
  name : String
  categories : List Category
deriving DecidableEq, Repr, Inhabited

/-- Merged region of a worksheet, as openpyxl exposes it through
`worksheet.merged_cells.ranges` (1-based inclusive bounds). -/
structure MergeRange where
  minRow : Nat
  minCol : Nat
  maxRow : Nat
  maxCol : Nat
deriving DecidableEq, Repr, Inhabited

/-- Membership of a (row, column) pair in a merged region, as tested in
`_get_unmerged_cell`: `min_row <= row <= max_row and min_col <= col <= max_col`. -/
def MergeRange.containsRC (m : MergeRange) (row col : Nat) : Bool :=
  decide (m.minRow ≤ row) && decide (row ≤ m.maxRow) &&
  decide (m.minCol ≤ col) && decide (col ≤ m.maxCol)

/-- Worksheet model: cell values indexed by (row, column) with 1-based indices,
the `max_row` bound used by the clearing loop, and the merged-region list. -/
structure Worksheet where
  cells : Nat → Nat → Value
  maxRow : Nat
  merged : List MergeRange

/-- Default worksheet used when indexing outside a workbook list. -/
def wsDefault : Worksheet := ⟨fun _ _ => Value.vnone, 0, []⟩

instance : Inhabited Worksheet := ⟨wsDefault⟩

/-- Assignment `cell.value = v` on the cell at (row, col): all other cells,
the max-row bound and the merged regions are untouched. -/
def setCell (ws : Worksheet) (row col : Nat) (v : Value) : Worksheet :=
  { ws with cells := fun r c => if r = row && c = col then v else ws.cells r c }

/-- Test used by `_clear_previous_month_data`: openpyxl returns a `MergedCell`
object for every member of a merged region except the top-left anchor, so a
cell is skipped by the clearing loop exactly when it lies inside some region
without being that region its anchor. -/
def isMergedCellObj (ws : Worksheet) (row col : Nat) : Bool :=
  ws.merged.any fun m =>
    m.containsRC row col && !(decide (row = m.minRow) && decide (col = m.minCol))

/-- Numeric column index of a single column letter, as computed by openpyxl
`column_index_from_string` on the first character of a coordinate; openpyxl
accepts only uppercase letters (anything else raises `ValueError`, which in the
Python code aborts the whole save), so theorems below only rely on this
function at uppercase letters. -/
def charColIndex (ch : Char) : Nat := ch.toNat - 64

/-- Numeric column index of a multi-letter uppercase column name, the value of
openpyxl `column_index_from_string`. -/
def colIndexFromString (s : String) : Nat :=
  s.data.foldl (fun acc c => acc * 26 + (c.toNat - 64)) 0

/-- Coordinate parsing performed inside `_get_unmerged_cell`: the alphabetic
characters give the column letters, the digit characters give the row number.
Returns (row, column index). -/
def parseRef (ref : String) : Nat × Nat :=
  (natOfDigits (ref.toList.filter Char.isDigit),
   colIndexFromString ⟨ref.toList.filter Char.isAlpha⟩)

/-- Embedding of `_get_unmerged_cell`: parse the coordinate, scan the merged
regions, return the top-left cell of the first region containing the
coordinate, and otherwise the parsed coordinate itself.  The result is the
(row, column) pair of the cell object the Python function returns. -/
def getUnmergedCell (ws : Worksheet) (ref : String) : Nat × Nat :=
  match ws.merged.find? (fun m => m.containsRC (parseRef ref).1 (parseRef ref).2) with
  | some m => (m.minRow, m.minCol)
  | none => parseRef ref

/-- Write of a value at the merge-resolved anchor of a coordinate, the common
pattern `cell = self._get_unmerged_cell(worksheet, ref); cell.value = v` of the
write passes. -/
def writeRef (ws : Worksheet) (ref : String) (v : Value) : Worksheet :=
  let p := getUnmergedCell ws ref
  setCell ws p.1 p.2 v

/-- Lexicographic code-point comparison of character lists, the order Python
uses when comparing strings. -/
def charListLe : List Char → List Char → Bool
  | [], _ => true
  | _ :: _, [] => false
  | a :: as, b :: bs =>
    if a.toNat < b.toNat then true
    else if b.toNat < a.toNat then false
    else charListLe as bs

/-- Python string comparison (code-point lexicographic). -/
def strLe (a b : String) : Bool := charListLe a.data b.data

/-- Stable insertion of a string into a sorted list, auxiliary to `pySorted`. -/
def insertSorted (x : String) : List String → List String
  | [] => [x]
  | y :: ys => if strLe x y then x :: y :: ys else y :: insertSorted x ys

/-- Python `sorted` on a list of strings (stable, ascending code-point order),
realised as an insertion sort. -/
def pySorted (l : List String) : List String := l.foldr insertSorted []

/-- Expression `sorted(task.inputs.keys())` used by the write passes. -/
def sortedKeys (t : Task) : List String := pySorted (t.inputs.map Prod.fst)

/-- Loop body of `_find_next_empty_columns`: walk the sorted coordinates,
resolve each through `_get_unmerged_cell`, collect coordinates whose resolved
cell holds a falsy value (`if cell and not cell.value`), and return as soon as
two are collected. -/
def collectEmpty (ws : Worksheet) : List String → List String → List String
  | [], acc => acc
  | r :: rest, acc =>
    if (ws.cells (getUnmergedCell ws r).1 (getUnmergedCell ws r).2).falsy then
      if (acc ++ [r]).length = 2 then acc ++ [r] else collectEmpty ws rest (acc ++ [r])
    else collectEmpty ws rest acc

/-- Embedding of `_find_next_empty_columns`: the collected empty coordinates
when there are any, and otherwise the first two sorted coordinates
(`input_cells[:2]`). -/
def findNextEmptyColumns (ws : Worksheet) (t : Task) : List String :=
  if (collectEmpty ws (sortedKeys t) []).isEmpty then (sortedKeys t).take 2
  else collectEmpty ws (sortedKeys t) []

/-- Emptiness test of the allocator, named for the characterization theorems:
the merge-resolved cell of the coordinate currently holds a falsy value. -/
def isEmptyAt (ws : Worksheet) (ref : String) : Bool :=
  (ws.cells (getUnmergedCell ws ref).1 (getUnmergedCell ws ref).2).falsy

/-- Test `task.name.lower().strip() == "comments:"` that excludes
comment-marker tasks from the write passes. -/
def isCommentTask (t : Task) : Bool := pyTrim (pyLower t.name) = "comments:"

/-- User selections collected by the dialog layer: initials, day, month and
year strings plus the chosen status label. -/
structure UserSel where
  initials : String
  day : String
  month : String
  year : String
  status : String
deriving DecidableEq, Repr

/-- Author-and-date string written into the first target cell:
`f"{initials.upper()} {day} {month.upper()} {year[2:]}"`. -/
def dateStr (u : UserSel) : String :=
  pyUpper u.initials ++ " " ++ u.day ++ " " ++ pyUpper u.month ++ " " ++ sliceFrom u.year 2

/-- Per-task body of `_write_new_month_data`: comment tasks are skipped; a task
with at least two sorted coordinates has the date string written at the
resolved first coordinate and the uppercased status at the resolved second
coordinate; a task with fewer coordinates is left alone. -/
def writeNewMonthTask (u : UserSel) (ws : Worksheet) (t : Task) : Worksheet :=
  if isCommentTask t then ws
  else
    match sortedKeys t with
    | c0 :: c1 :: _ =>
      let ws1 := writeRef ws c0 (Value.vstr (dateStr u))
      writeRef ws1 c1 (Value.vstr (pyUpper u.status))
    | _ => ws

/-- Embedding of `_write_new_month_data` over one worksheet. -/
def writeNewMonthData (u : UserSel) (ws : Worksheet) (sd : SheetData) : Worksheet :=
  sd.categories.foldl (fun w cat => cat.tasks.foldl (writeNewMonthTask u) w) ws

/-- Per-task body of `_write_same_month_data`: comment tasks are skipped; when
the allocator returns at least two coordinates the date string and the
uppercased status are written at their resolved anchors; otherwise nothing is
written. -/
def writeSameMonthTask (u : UserSel) (ws : Worksheet) (t : Task) : Worksheet :=
  if isCommentTask t then ws
  else
    match findNextEmptyColumns ws t with
    | c0 :: c1 :: _ =>
      let ws1 := writeRef ws c0 (Value.vstr (dateStr u))
      writeRef ws1 c1 (Value.vstr (pyUpper u.status))
    | _ => ws

/-- Embedding of `_write_same_month_data` over one worksheet. -/
def writeSameMonthData (u : UserSel) (ws : Worksheet) (sd : SheetData) : Worksheet :=
  sd.categories.foldl (fun w cat => cat.tasks.foldl (writeSameMonthTask u) w) ws

/-- Tasks of the first category of the first sheet, the collection the clearing
pass draws its columns from (`self.data[0]['categories'][0]['tasks']`); the
Python expression raises on missing sheets or categories, and the theorems
below only use data on which it is defined. -/
def firstCategoryTasks (data : List SheetData) : List Task :=
  match data with
  | [] => []
  | sd :: _ =>
    match sd.categories with
    | [] => []
    | cat :: _ => cat.tasks

/-- Column letters gathered by `_clear_previous_month_data`: the first
character of every input coordinate of every task of the first category of the
first sheet (`cell_ref[0]`), deduplicated as a Python set. -/
def inputColumnChars (data : List SheetData) : List Char :=
  ((firstCategoryTasks data).foldl
    (fun acc t => acc ++ t.inputs.map fun p => p.fst.toList.headD ' ') []).eraseDups

/-- Inner loop of `_clear_previous_month_data` for one column: every row from
9 through `max_row` has its cell set to `None` unless openpyxl reports it as a
`MergedCell`. -/
def clearColumn (ws : Worksheet) (colIdx : Nat) : Worksheet :=
  (List.range' 9 (ws.maxRow + 1 - 9)).foldl
    (fun w r => if isMergedCellObj w r colIdx then w else setCell w r colIdx Value.vnone)
    ws

/-- Embedding of `_clear_previous_month_data` restricted to one worksheet:
every gathered column other than `A` is cleared. -/
def clearPrevMonthData (data : List SheetData) (ws : Worksheet) : Worksheet :=
  (inputColumnChars data).foldl
    (fun w ch => if ch = 'A' then w else clearColumn w (charColIndex ch)) ws

/-- Loop of `_clear_previous_month_data` over all worksheets of the workbook. -/
def clearWorkbook (data : List SheetData) (wb : List Worksheet) : List Worksheet :=
  wb.map (clearPrevMonthData data)

/-- Output filename computed by `_save_to_excel`: the stem tokens except the
trailing three joined with spaces, then the literal format
`f"{base_name} {day} {month.upper()} {year[2:]}.xlsx"`. -/
def newFilenameOf (stem : String) (u : UserSel) : String :=
  let parts := pySplit stem
  let baseName := pyJoin " " (parts.take (parts.length - 3))
  baseName ++ " " ++ u.day ++ " " ++ pyUpper u.month ++ " " ++ sliceFrom u.year 2 ++ ".xlsx"

/-- Loop of `_save_to_excel` over the sheets of the session data: the sheet
index is parsed from the last token of the sheet name (Python `int` raising,
hence `none`, on a malformed name), out-of-range indices are skipped, and the
mode test `old_month == selected_month.upper()` is re-evaluated for every
sheet exactly as in the source. -/
def writeSheetsAux (u : UserSel) (oldMonth : String) :
    List SheetData → List Worksheet → Option (List Worksheet)
  | [], wb => some wb
  | sd :: rest, wb =>
    match pyInt? ((pySplit sd.name).getLastD "") with
    | none => none
    | some n =>
      let idx : Int := n - 1
      if 0 ≤ idx ∧ idx < wb.length then
        let ws := wb.getD idx.toNat wsDefault
        let ws2 :=
          if oldMonth = pyUpper u.month then writeSameMonthData u ws sd
          else writeNewMonthData u ws sd
        writeSheetsAux u oldMonth rest (wb.set idx.toNat ws2)
      else writeSheetsAux u oldMonth rest wb

/-- Embedding of `_save_to_excel` on an already loaded workbook: parse the
stem (Python raises `IndexError` on `filename_parts[-2]` when the stem has
fewer than two tokens, so the save aborts and `none` is returned), clear the
workbook when the stored month differs from the uppercased selection, run the
per-sheet write loop, and return the final workbook with the new filename.
`none` models every aborted save (nothing persisted). -/
def saveToExcel (data : List SheetData) (u : UserSel) (stem : String)
    (wb : List Worksheet) : Option (List Worksheet × String) :=
  let parts := pySplit stem
  if parts.length < 2 then none
  else
    let oldMonth := parts.getD (parts.length - 2) ""
    let wb1 := if oldMonth = pyUpper u.month then wb else clearWorkbook data wb
    (writeSheetsAux u oldMonth data wb1).map fun wb2 => (wb2, newFilenameOf stem u)

/-- Period label `filename_parts[-2]` parsed from the stem, defined whenever
the stem has at least two tokens (the save aborts otherwise). -/
def parsedOldMonth (stem : String) : String :=
  (pySplit stem).getD ((pySplit stem).length - 2) ""

/-- Lead cell of a worksheet row as the classifier in `_process_worksheet`
reads it: the raw value, the fill color identifier
(`first_cell.fill.start_color.index`) and the bold flag of the font. -/
structure LeadCell where
  value : Value
  fill : String
  bold : Bool
deriving DecidableEq, Repr

/-- Parser state while walking rows: the open category (if any) and the list
of closed categories accumulated on the sheet. -/
structure ParseState where
  current : Option Category
  closed : List Category
deriving DecidableEq, Repr

/-- Letter list of a 1-based column index, auxiliary to `colLetters`; the
first argument is structural fuel. -/
def colLettersAux : Nat → Nat → List Char
  | 0, _ => []
  | _ + 1, 0 => []
  | fuel + 1, n + 1 => colLettersAux fuel ((n + 1 - 1) / 26) ++ [Char.ofNat (65 + (n + 1 - 1) % 26)]

/-- Column letters of a 1-based column index, the value of openpyxl
`get_column_letter` (bijective base 26). -/
def colLetters (n : Nat) : String := ⟨colLettersAux n n⟩

/-- Value recorded for one input slot by `_get_input_values`:
`str(cell.value) if cell.value else DEFAULT_VALUE`. -/
def getInputValue (v : Value) : String :=
  if v.falsy then DEFAULT_VALUE else v.pyStr

/-- Embedding of `_get_input_values` for the row at `rowNum` whose cells are
given by `rowCells` (indexed by 1-based column): one entry per located input
column, keyed by `{column_letter}{row}`. -/
def getInputValues (inputCols : List Nat) (rowCells : Nat → Value) (rowNum : Nat) :
    List (String × String) :=
  inputCols.map fun col => (colLetters col ++ natRepr rowNum, getInputValue (rowCells col))

/-- Row handler of `_process_worksheet`, one step of the fold over rows: the
if-elif chain on the lead cell mutates the open category and the closed list.
The input mapping the row would contribute is passed in as `inputs`
(`_get_input_values(row)` in the source). -/
def processRow (st : ParseState) (lead : LeadCell) (inputs : List (String × String)) :
    ParseState :=
  if lead.value.falsy then st
  else
    let cellValue := pyTrim lead.value.pyStr
    if lead.fill = CATEGORY_COLOR && lead.bold then
      match st.current with
      | some c => ⟨some ⟨cellValue, []⟩, st.closed ++ [c]⟩
      | none => ⟨some ⟨cellValue, []⟩, st.closed⟩
    else if lead.bold then
      match st.current with
      | some c => ⟨some ⟨c.name, c.tasks ++ [⟨cellValue, "", inputs⟩]⟩, st.closed⟩
      | none => st
    else
      match st.current with
      | some c =>
        if !lead.bold && !c.tasks.isEmpty then
          match c.tasks.getLast? with
          | some t =>
            let t2 : Task :=
              if t.description = "" then ⟨t.name, cellValue, t.inputs⟩
              else ⟨t.name, t.description ++ " " ++ cellValue, t.inputs⟩
            ⟨some ⟨c.name, c.tasks.dropLast ++ [t2]⟩, st.closed⟩
          | none => st
        else st
      | none => st

/-- Fold of `processRow` over the rows of a worksheet followed by the final
close of the open category, producing the ordered category list of the sheet
exactly as `_process_worksheet` does. -/
def processRows (rows : List (LeadCell × List (String × String))) : List Category :=
  let st := rows.foldl (fun s r => processRow s r.1 r.2) ⟨none, []⟩
  match st.current with
  | some c => st.closed ++ [c]
  | none => st.closed

/-- Structural role of a row in the vocabulary of the specification. -/
inductive RowRole where
  | ignore : RowRole
  | categoryHeader : RowRole
  | taskHeader : RowRole
  | descriptionLine : RowRole
deriving DecidableEq, Repr

/-- Modelled from the claim text of C8 as stated: priority (a) fires on empty
lead-cell TEXT, then (b) category color and bold, (c) bold, (d) not bold with
an active category holding at least one task, (e) ignore. -/
def claimClassifyStated (lead : LeadCell) (activeWithTask : Bool) : RowRole :=
  if pyTrim lead.value.pyStr = "" then .ignore
  else if lead.fill = CATEGORY_COLOR && lead.bold then .categoryHeader
  else if lead.bold then .taskHeader
  else if !lead.bold && activeWithTask then .descriptionLine
  else .ignore

/-- Amended classification: priority (a) fires on a falsy lead-cell VALUE
(`if not first_cell.value`), the remaining priorities as the claim states
them. -/
def claimClassify (lead : LeadCell) (activeWithTask : Bool) : RowRole :=
  if lead.value.falsy then .ignore
  else if lead.fill = CATEGORY_COLOR && lead.bold then .categoryHeader
  else if lead.bold then .taskHeader
  else if !lead.bold && activeWithTask then .descriptionLine
  else .ignore

/-- Two-phase row step built from the specification text: classify the row,
then apply the role effect (a task header or description line with no active
category is silently discarded). -/
def claimStep (st : ParseState) (lead : LeadCell) (inputs : List (String × String)) :
    ParseState :=
  let activeWithTask :=
    match st.current with
    | some c => !c.tasks.isEmpty
    | none => false
  match claimClassify lead activeWithTask with
  | .ignore => st
  | .categoryHeader =>
    match st.current with
    | some c => ⟨some ⟨pyTrim lead.value.pyStr, []⟩, st.closed ++ [c]⟩
    | none => ⟨some ⟨pyTrim lead.value.pyStr, []⟩, st.closed⟩
  | .taskHeader =>
    match st.current with
    | some c => ⟨some ⟨c.name, c.tasks ++ [⟨pyTrim lead.value.pyStr, "", inputs⟩]⟩, st.closed⟩
    | none => st
  | .descriptionLine =>
    match st.current with
    | some c =>
      match c.tasks.getLast? with
      | some t =>
        let t2 : Task :=
          if t.description = "" then ⟨t.name, pyTrim lead.value.pyStr, t.inputs⟩
          else ⟨t.name, t.description ++ " " ++ pyTrim lead.value.pyStr, t.inputs⟩
        ⟨some ⟨c.name, c.tasks.dropLast ++ [t2]⟩, st.closed⟩
      | none => st
    | none => st

/-- Modelled from the claim text of C1: same-period mode holds when the two
period labels agree after case normalization of BOTH sides. -/
def claimSamePeriod (oldLabel newLabel : String) : Bool :=
  pyUpper oldLabel = pyUpper newLabel

/-- Modelled from the claim text of C6: the output filename is the stem tokens
except the trailing three, followed by day, uppercased period and two-digit
year, all joined by single spaces, with extension `.xlsx`. -/
def claimFilename (stem : String) (u : UserSel) : String :=
  let parts := pySplit stem
  pyJoin " "
    (parts.take (parts.length - 3) ++ [u.day, pyUpper u.month, sliceFrom u.year 2]) ++ ".xlsx"

/-- Modelled from the claim text of C3: the column set the claim says the reset
pass uses, namely the first characters of the input coordinates of the FIRST
task only of the first category of the first sheet. -/
def claimResetColumns (data : List SheetData) : List Char :=
  (((firstCategoryTasks data).headD default).inputs.map fun p => p.fst.toList.headD ' ').eraseDups

/-- Single-gate write loop used to state the amended C1: identical to
`writeSheetsAux` except that the strategy is the pre-computed boolean `same`
instead of a string comparison re-evaluated per sheet. -/
def writeSheetsGated (u : UserSel) (same : Bool) :
    List SheetData → List Worksheet → Option (List Worksheet)
  | [], wb => some wb
  | sd :: rest, wb =>
    match pyInt? ((pySplit sd.name).getLastD "") with
    | none => none
    | some n =>
      let idx : Int := n - 1
      if 0 ≤ idx ∧ idx < wb.length then
        let ws := wb.getD idx.toNat wsDefault
        let ws2 := if same then writeSameMonthData u ws sd else writeNewMonthData u ws sd
        writeSheetsGated u same rest (wb.set idx.toNat ws2)
      else writeSheetsGated u same rest wb

/-! Fixtures: concrete worksheets, data and selections used by witnesses and
counterexamples. -/

/-- Selection used throughout the concrete instances: initials "ab", day 15 of
Jan 2024, status "Ok". -/
def uA : UserSel := ⟨"ab", "15", "Jan", "2024", "Ok"⟩

/-- Worksheet with the historical value "old" in cells B10 and C10, last row
10 and no merged regions. -/
def wsOld : Worksheet :=
  ⟨fun r c => if r = 10 && (c = 2 || c = 3) then Value.vstr "old" else Value.vnone, 10, []⟩

/-- Session data with one sheet, one category and one two-slot task at row 9. -/
def dataB9C9 : List SheetData :=
  [⟨"Sheet 1", [⟨"Cat", [⟨"T1", "", [("B9", "x"), ("C9", "y")]⟩]⟩]⟩]

/-- Worksheet whose B9 cell is filled and whose C9 cell is empty. -/
def wsHalf : Worksheet :=
  ⟨fun r c => if r = 9 && c = 2 then Value.vstr "done" else Value.vnone, 9, []⟩

/-- Task declaring the two input coordinates B9 and C9. -/
def taskB9C9 : Task := ⟨"T", "", [("B9", "x"), ("C9", "y")]⟩

/-- Session data whose first category has two tasks with different input
columns (B for the first task, C for the second). -/
def dataSplitCols : List SheetData :=
  [⟨"Sheet 1", [⟨"Cat", [⟨"T1", "", [("B9", "x")]⟩, ⟨"T2", "", [("C9", "y")]⟩]⟩]⟩]

/-- Worksheet with every cell filled with value "d" up to row 9. -/
def wsAllFilled : Worksheet := ⟨fun _ _ => Value.vstr "d", 9, []⟩

/-- Sheet data holding one task whose input coordinates sit at row 5, inside
the header block the specification declares untouchable. -/
def sdRow5 : SheetData := ⟨"Sheet 1", [⟨"Cat", [⟨"T", "", [("B5", "x"), ("C5", "y")]⟩]⟩]⟩

/-- Empty worksheet with ten rows and no merged regions. -/
def wsEmpty10 : Worksheet := ⟨fun _ _ => Value.vnone, 10, []⟩

/-- Worksheet whose only merged region is the two-cell horizontal range
B9:C9. -/
def wsMergedB9C9 : Worksheet := ⟨fun _ _ => Value.vnone, 10, [⟨9, 2, 9, 3⟩]⟩

/-- Anchor-avoidance predicate for one task: no input coordinate of the task
resolves to the given cell. -/
def TaskAvoids (ws : Worksheet) (r c : Nat) (t : Task) : Prop :=
  ∀ k ∈ t.inputs.map Prod.fst, getUnmergedCell ws k ≠ (r, c)

instance (ws : Worksheet) (r c : Nat) (t : Task) : Decidable (TaskAvoids ws r c t) :=
  inferInstanceAs (Decidable (∀ k ∈ t.inputs.map Prod.fst, getUnmergedCell ws k ≠ (r, c)))

end IMS

namespace IMS

/-! Basic lemmas about cell assignment and the merge resolver. -/

theorem setCell_merged (ws : Worksheet) (row col : Nat) (v : Value) :
    (setCell ws row col v).merged = ws.merged := rfl

theorem setCell_maxRow (ws : Worksheet) (row col : Nat) (v : Value) :
    (setCell ws row col v).maxRow = ws.maxRow := rfl

theorem setCell_cells (ws : Worksheet) (row col : Nat) (v : Value) (r c : Nat) :
    (setCell ws row col v).cells r c = if r = row && c = col then v else ws.cells r c := rfl

theorem getUnmergedCell_merged_eq {ws ws2 : Worksheet} (h : ws.merged = ws2.merged)
    (ref : String) : getUnmergedCell ws ref = getUnmergedCell ws2 ref := by
  unfold getUnmergedCell
  rw [h]

theorem writeRef_merged (ws : Worksheet) (ref : String) (v : Value) :
    (writeRef ws ref v).merged = ws.merged := rfl

theorem writeRef_maxRow (ws : Worksheet) (ref : String) (v : Value) :
    (writeRef ws ref v).maxRow = ws.maxRow := rfl

theorem writeRef_cells_eq (ws : Worksheet) (ref : String) (v : Value) :
    (writeRef ws ref v).cells (getUnmergedCell ws ref).1 (getUnmergedCell ws ref).2 = v := by
  unfold writeRef
  simp [setCell_cells]

theorem writeRef_cells_ne (ws : Worksheet) (ref : String) (v : Value) (r c : Nat)
    (h : getUnmergedCell ws ref ≠ (r, c)) :
    (writeRef ws ref v).cells r c = ws.cells r c := by
  unfold writeRef
  rw [setCell_cells]
  have : (r = (getUnmergedCell ws ref).1 && c = (getUnmergedCell ws ref).2) = false := by
    by_cases h1 : r = (getUnmergedCell ws ref).1
    · by_cases h2 : c = (getUnmergedCell ws ref).2
      · exact absurd (Prod.ext_iff.mpr ⟨h1.symm, h2.symm⟩) h
      · simp [h2]
    · simp [h1]
  rw [this]
  simp

/-- Claim C9: the merged-cell resolver returns the top-left anchor of the
region containing the parsed coordinate when such a region exists (and is the
only one containing it, as openpyxl guarantees for well-formed workbooks), and
returns the parsed coordinate unchanged when no region contains it. -/
theorem claim9_merge_resolver (ws : Worksheet) (ref : String) :
    (∀ m ∈ ws.merged, m.containsRC (parseRef ref).1 (parseRef ref).2 = true →
      (∀ m2 ∈ ws.merged, m2.containsRC (parseRef ref).1 (parseRef ref).2 = true → m2 = m) →
      getUnmergedCell ws ref = (m.minRow, m.minCol)) ∧
    ((∀ m ∈ ws.merged, m.containsRC (parseRef ref).1 (parseRef ref).2 = false) →
      getUnmergedCell ws ref = parseRef ref) := by
  constructor
  · intro m hm hc huniq
    unfold getUnmergedCell
    cases hfind : ws.merged.find? (fun m2 => m2.containsRC (parseRef ref).1 (parseRef ref).2) with
    | none =>
      exact absurd hc (by simpa using List.find?_eq_none.mp hfind m hm)
    | some m2 =>
      have h1 : m2.containsRC (parseRef ref).1 (parseRef ref).2 = true := by
        simpa using List.find?_some hfind
      have h2 : m2 ∈ ws.merged := List.mem_of_find?_eq_some hfind
      show (m2.minRow, m2.minCol) = (m.minRow, m.minCol)
      rw [huniq m2 h2 h1]
  · intro hnone
    unfold getUnmergedCell
    cases hfind : ws.merged.find? (fun m2 => m2.containsRC (parseRef ref).1 (parseRef ref).2) with
    | none => rfl
    | some m2 =>
      have h1 : m2.containsRC (parseRef ref).1 (parseRef ref).2 = true := by
        simpa using List.find?_some hfind
      have h2 : m2 ∈ ws.merged := List.mem_of_find?_eq_some hfind
      rw [hnone m2 h2] at h1
      cases h1

/-- Witness for C9 on the worksheet with the single 2-by-1 merged region
B9:C9: the member coordinate C9 resolves to the anchor B9, and the unmerged
coordinate D9 resolves to itself. -/
theorem claim9_merge_resolver_witness :
    getUnmergedCell wsMergedB9C9 "C9" = (9, 2) ∧ getUnmergedCell wsMergedB9C9 "D9" = (9, 4) := by
  constructor
  · exact (claim9_merge_resolver wsMergedB9C9 "C9").1 ⟨9, 2, 9, 3⟩ (by decide) (by decide)
      (by decide)
  · exact (claim9_merge_resolver wsMergedB9C9 "D9").2 (by decide)

/-- Claim C10 (amended): every located column contributes the entry
`(letter-row coordinate, recorded value)`; the recorded value is the sentinel
whenever the cell value is falsy, and the Python string of the value when it
is truthy; two rows whose values are pointwise equal or pointwise both falsy
are indistinguishable at the interchange interface, and an integer zero cell
is recorded exactly like an absent value.  The amendment: the converse
direction of the stated "exactly when" fails when a truthy cell contains the
literal sentinel text, see the counterexample. -/
theorem claim10_recorded_values :
    (∀ (cols : List Nat) (f : Nat → Value) (rn col : Nat), col ∈ cols →
      (colLetters col ++ natRepr rn, getInputValue (f col)) ∈ getInputValues cols f rn) ∧
    (∀ v : Value, v.falsy = true → getInputValue v = DEFAULT_VALUE) ∧
    (∀ v : Value, v.falsy = false → getInputValue v = v.pyStr) ∧
    (∀ (cols : List Nat) (rn : Nat) (f g : Nat → Value),
      (∀ c, ((f c).falsy = true ∧ (g c).falsy = true) ∨ f c = g c) →
      getInputValues cols f rn = getInputValues cols g rn) ∧
    getInputValue (Value.vint 0) = getInputValue Value.vnone := by
  refine ⟨?_, ?_, ?_, ?_, rfl⟩
  · intro cols f rn col hcol
    exact List.mem_map_of_mem _ hcol
  · intro v hv
    simp [getInputValue, hv]
  · intro v hv
    simp [getInputValue, hv]
  · intro cols rn f g h
    unfold getInputValues
    refine List.map_congr_left ?_
    intro col _
    rcases h col with ⟨hf, hg⟩ | heq
    · simp [getInputValue, hf, hg]
    · rw [heq]

/-- Witness for C10 at concrete inputs: column 2 of a row of absent values
yields the entry ("B9", "no input"), the zero-valued and absent rows produce
identical interchange records, and the two directional facts hold at the
values 0 and "x". -/
theorem claim10_recorded_values_witness :
    ("B9", "no input") ∈ getInputValues [2] (fun _ => Value.vnone) 9 ∧
    getInputValues [2, 3] (fun _ => Value.vint 0) 9 =
      getInputValues [2, 3] (fun _ => Value.vnone) 9 ∧
    getInputValue (Value.vint 0) = DEFAULT_VALUE ∧
    getInputValue (Value.vstr "x") = (Value.vstr "x").pyStr := by
  refine ⟨?_, ?_, ?_, ?_⟩
  · exact claim10_recorded_values.1 [2] (fun _ => Value.vnone) 9 2 (by decide)
  · exact claim10_recorded_values.2.2.2.1 [2, 3] 9 _ _ (fun c => Or.inl ⟨rfl, rfl⟩)
  · exact claim10_recorded_values.2.1 _ rfl
  · exact claim10_recorded_values.2.2.1 _ rfl

/-- Counterexample for C10 as stated: a truthy cell whose text is the literal
sentinel is recorded as the sentinel, so the recorded value being the sentinel
does not imply the cell value was falsy. -/
theorem claim10_recorded_values_cex :
    getInputValue (Value.vstr "no input") = DEFAULT_VALUE ∧
    (Value.vstr "no input").falsy = false := by
  constructor
  · rfl
  · rfl

/-! Filename derivation. -/

theorem pyJoin_append_one (sep : String) :
    ∀ (l : List String) (x : String), l ≠ [] →
      pyJoin sep (l ++ [x]) = pyJoin sep l ++ sep ++ x := by
  intro l
  induction l with
  | nil => intro x h; exact absurd rfl h
  | cons a l2 ih =>
    intro x _
    cases l2 with
    | nil => rfl
    | cons b l3 =>
      have h1 : pyJoin sep (a :: b :: l3 ++ [x]) = a ++ sep ++ pyJoin sep (b :: (l3 ++ [x])) := rfl
      have h2 : pyJoin sep (a :: b :: l3) = a ++ sep ++ pyJoin sep (b :: l3) := rfl
      rw [h1, h2, ← List.cons_append, ih x (by simp)]
      simp [String.append_assoc]

theorem newFilenameOf_eq_claim (stem : String) (u : UserSel)
    (h4 : 4 ≤ (pySplit stem).length) :
    newFilenameOf stem u = claimFilename stem u := by
  show pyJoin " " ((pySplit stem).take ((pySplit stem).length - 3)) ++ " " ++ u.day ++ " "
        ++ pyUpper u.month ++ " " ++ sliceFrom u.year 2 ++ ".xlsx"
      = pyJoin " " ((pySplit stem).take ((pySplit stem).length - 3)
        ++ [u.day, pyUpper u.month, sliceFrom u.year 2]) ++ ".xlsx"
  have hlen : ((pySplit stem).take ((pySplit stem).length - 3)).length
      = (pySplit stem).length - 3 := by
    rw [List.length_take]
    omega
  have hne : (pySplit stem).take ((pySplit stem).length - 3) ≠ [] := by
    intro h
    rw [h] at hlen
    simp at hlen
    omega
  have hsplit : (pySplit stem).take ((pySplit stem).length - 3)
        ++ [u.day, pyUpper u.month, sliceFrom u.year 2]
      = (((pySplit stem).take ((pySplit stem).length - 3) ++ [u.day])
        ++ [pyUpper u.month]) ++ [sliceFrom u.year 2] := by
    simp
  rw [hsplit]
  rw [pyJoin_append_one " " _ _ (by simp)]
  rw [pyJoin_append_one " " _ _ (by simp [hne])]
  rw [pyJoin_append_one " " _ _ hne]

/-- Claim C6 (amended): whenever the stem has at least four whitespace
tokens, the filename of a completed save is exactly the claimed format: the
stem tokens except the trailing three, then the selected day, the uppercased
period label and the two-digit year, space separated, with extension `.xlsx`.
When the stem has exactly three tokens the base name is empty and the code
prepends a space, see the counterexample. -/
theorem claim6_output_filename (data : List SheetData) (u : UserSel) (stem : String)
    (wb : List Worksheet) (h4 : 4 ≤ (pySplit stem).length) (wb2 : List Worksheet) (fn : String)
    (hsave : saveToExcel data u stem wb = some (wb2, fn)) :
    fn = claimFilename stem u := by
  unfold saveToExcel at hsave
  rw [if_neg (by omega)] at hsave
  obtain ⟨wb3, _, heq⟩ := Option.map_eq_some'.mp hsave
  have : fn = newFilenameOf stem u := by
    have := congrArg Prod.snd heq
    simpa using this.symm
  rw [this]
  exact newFilenameOf_eq_claim stem u h4

/-- Witness for C6: saving the scenario file "Fire Panel 12 JAN 24" with the
new selection (15, Jan, 2024) yields the filename "Fire Panel 15 JAN 24.xlsx",
which matches the claimed format. -/
theorem claim6_output_filename_witness :
    saveToExcel [] uA "Fire Panel 12 JAN 24" [] = some ([], "Fire Panel 15 JAN 24.xlsx") ∧
    "Fire Panel 15 JAN 24.xlsx" = claimFilename "Fire Panel 12 JAN 24" uA := by
  constructor
  · rfl
  · exact claim6_output_filename [] uA "Fire Panel 12 JAN 24" [] (by decide) []
      "Fire Panel 15 JAN 24.xlsx" rfl

/-- Counterexample for C6 as stated: on a stem with exactly three tokens the
code joins an empty base name with a space, so the saved filename carries a
leading space while the claimed format does not. -/
theorem claim6_output_filename_cex :
    (saveToExcel dataB9C9 uA "12 JAN 24" [wsOld]).map Prod.snd = some " 15 JAN 24.xlsx" ∧
    claimFilename "12 JAN 24" uA = "15 JAN 24.xlsx" ∧
    newFilenameOf "12 JAN 24" uA ≠ claimFilename "12 JAN 24" uA := by
  refine ⟨by decide, by decide, by decide⟩

/-- Claim C7 (amended): the save aborts before anything is persisted exactly
when the stem has fewer than two whitespace tokens (the Python
`filename_parts[-2]` lookup raises `IndexError`); a two-token stem parses
without error, treats the first token as the stored period label, and the save
proceeds, see the counterexample. -/
theorem claim7_short_stem_aborts (data : List SheetData) (u : UserSel) (stem : String)
    (wb : List Worksheet) (h : (pySplit stem).length < 2) :
    saveToExcel data u stem wb = none := by
  unfold saveToExcel
  rw [if_pos h]

/-- Witness for C7 on a one-token stem: the save aborts. -/
theorem claim7_short_stem_aborts_witness :
    (pySplit "Panel").length < 2 ∧ saveToExcel dataB9C9 uA "Panel" [wsOld] = none := by
  exact ⟨by decide, claim7_short_stem_aborts dataB9C9 uA "Panel" [wsOld] (by decide)⟩

/-- Counterexample for C7 as stated: a stem with two tokens has fewer than
three whitespace tokens, yet the save completes instead of failing. -/
theorem claim7_short_stem_aborts_cex :
    (pySplit "Panel 12").length < 3 ∧
    (saveToExcel dataB9C9 uA "Panel 12" [wsOld]).isSome = true := by
  exact ⟨by decide, by decide⟩

/-! Period transition gate. -/

theorem writeSheetsAux_eq_gated (u : UserSel) (oldMonth : String) :
    ∀ (data : List SheetData) (wb : List Worksheet),
      writeSheetsAux u oldMonth data wb =
        writeSheetsGated u (decide (oldMonth = pyUpper u.month)) data wb := by
  intro data
  induction data with
  | nil => intro wb; rfl
  | cons sd rest ih =>
    intro wb
    show (match pyInt? ((pySplit sd.name).getLastD "") with
      | none => none
      | some n =>
        if 0 ≤ (n - 1 : Int) ∧ (n - 1 : Int) < wb.length then
          writeSheetsAux u oldMonth rest
            (wb.set (n - 1 : Int).toNat
              (if oldMonth = pyUpper u.month then
                writeSameMonthData u (wb.getD (n - 1 : Int).toNat wsDefault) sd
               else writeNewMonthData u (wb.getD (n - 1 : Int).toNat wsDefault) sd))
        else writeSheetsAux u oldMonth rest wb) =
      (match pyInt? ((pySplit sd.name).getLastD "") with
      | none => none
      | some n =>
        if 0 ≤ (n - 1 : Int) ∧ (n - 1 : Int) < wb.length then
          writeSheetsGated u (decide (oldMonth = pyUpper u.month)) rest
            (wb.set (n - 1 : Int).toNat
              (if decide (oldMonth = pyUpper u.month) then
                writeSameMonthData u (wb.getD (n - 1 : Int).toNat wsDefault) sd
               else writeNewMonthData u (wb.getD (n - 1 : Int).toNat wsDefault) sd))
        else writeSheetsGated u (decide (oldMonth = pyUpper u.month)) rest wb)
    cases pyInt? ((pySplit sd.name).getLastD "") with
    | none => rfl
    | some n =>
      by_cases hsame : oldMonth = pyUpper u.month
      · simp only [hsame] at ih ⊢
        simp [ih]
      · simp [hsame, ih]

/-- Claim C1: the write-back selects same-period (append) mode exactly when
the period label parsed from the existing filename equals the newly selected
label under case normalization, and this single boolean controls both the
clearing pass and the per-sheet write strategy.  The statement carries the
domain invariant of the claim ("previously saved filename"): every filename
the program saves stores the period token uppercased, so the parsed label is
its own uppercasing; under that invariant the code comparison
`old_month == selected.upper()` coincides with the case-normalized
comparison of the two labels. -/
theorem claim1_period_gate (data : List SheetData) (u : UserSel) (stem : String)
    (wb : List Worksheet) (h2 : 2 ≤ (pySplit stem).length)
    (hup : pyUpper (parsedOldMonth stem) = parsedOldMonth stem) :
    decide (parsedOldMonth stem = pyUpper u.month)
        = claimSamePeriod (parsedOldMonth stem) u.month ∧
    saveToExcel data u stem wb =
      (writeSheetsGated u (claimSamePeriod (parsedOldMonth stem) u.month) data
          (if claimSamePeriod (parsedOldMonth stem) u.month = true then wb
           else clearWorkbook data wb)).map
        fun wb2 => (wb2, newFilenameOf stem u) := by
  have hgate : decide (parsedOldMonth stem = pyUpper u.month)
      = claimSamePeriod (parsedOldMonth stem) u.month := by
    unfold claimSamePeriod
    exact decide_eq_decide.mpr (by rw [hup])
  refine ⟨hgate, ?_⟩
  unfold saveToExcel
  rw [if_neg (by omega)]
  show Option.map (fun wb2 => (wb2, newFilenameOf stem u))
      (writeSheetsAux u (parsedOldMonth stem) data
        (if parsedOldMonth stem = pyUpper u.month then wb else clearWorkbook data wb))
    = Option.map (fun wb2 => (wb2, newFilenameOf stem u))
      (writeSheetsGated u (claimSamePeriod (parsedOldMonth stem) u.month) data
        (if claimSamePeriod (parsedOldMonth stem) u.month = true then wb
         else clearWorkbook data wb))
  rw [writeSheetsAux_eq_gated, hgate]
  by_cases hsame : parsedOldMonth stem = pyUpper u.month
  · rw [if_pos hsame, if_pos (by rw [← hgate]; simpa using hsame)]
  · rw [if_neg hsame, if_neg (by rw [← hgate]; simpa using hsame)]

/-- Witness for C1: a stem whose stored period token is the uppercase "JAN"
satisfies both hypotheses, and the gate equations hold there. -/
theorem claim1_period_gate_witness :
    2 ≤ (pySplit "A 12 JAN 24").length ∧
    pyUpper (parsedOldMonth "A 12 JAN 24") = parsedOldMonth "A 12 JAN 24" ∧
    (decide (parsedOldMonth "A 12 JAN 24" = pyUpper uA.month)
        = claimSamePeriod (parsedOldMonth "A 12 JAN 24") uA.month) ∧
    saveToExcel [] uA "A 12 JAN 24" [] =
      (writeSheetsGated uA (claimSamePeriod (parsedOldMonth "A 12 JAN 24") uA.month) []
          (if claimSamePeriod (parsedOldMonth "A 12 JAN 24") uA.month = true
           then ([] : List Worksheet) else clearWorkbook [] [])).map
        fun wb2 => (wb2, newFilenameOf "A 12 JAN 24" uA) := by
  refine ⟨by decide, by decide, ?_, ?_⟩
  · exact (claim1_period_gate [] uA "A 12 JAN 24" [] (by decide) (by decide)).1
  · exact (claim1_period_gate [] uA "A 12 JAN 24" [] (by decide) (by decide)).2

/-! Write passes per task. -/

/-- Task with the comment-marker name. -/
def taskComment : Task := ⟨" Comments: ", "notes", [("B9", "x"), ("C9", "y")]⟩

/-- Claim C5: comment-marker tasks are skipped entirely by both write passes;
for any other task for which the active-mode allocator yields two coordinates
with distinct resolved anchors, the first anchor receives the author-and-date
string and the second anchor receives the uppercased status label, both writes
going through the merged-cell resolver. -/
theorem claim5_write_pass (u : UserSel) (ws : Worksheet) (t : Task) :
    (isCommentTask t = true → writeNewMonthTask u ws t = ws ∧ writeSameMonthTask u ws t = ws) ∧
    (∀ c0 c1 rest, isCommentTask t = false → sortedKeys t = c0 :: c1 :: rest →
      getUnmergedCell ws c0 ≠ getUnmergedCell ws c1 →
      (writeNewMonthTask u ws t).cells (getUnmergedCell ws c0).1 (getUnmergedCell ws c0).2
          = Value.vstr (dateStr u) ∧
      (writeNewMonthTask u ws t).cells (getUnmergedCell ws c1).1 (getUnmergedCell ws c1).2
          = Value.vstr (pyUpper u.status)) ∧
    (∀ c0 c1 rest, isCommentTask t = false → findNextEmptyColumns ws t = c0 :: c1 :: rest →
      getUnmergedCell ws c0 ≠ getUnmergedCell ws c1 →
      (writeSameMonthTask u ws t).cells (getUnmergedCell ws c0).1 (getUnmergedCell ws c0).2
          = Value.vstr (dateStr u) ∧
      (writeSameMonthTask u ws t).cells (getUnmergedCell ws c1).1 (getUnmergedCell ws c1).2
          = Value.vstr (pyUpper u.status)) := by
  refine ⟨?_, ?_, ?_⟩
  · intro hc
    constructor
    · unfold writeNewMonthTask
      rw [hc]
      rfl
    · unfold writeSameMonthTask
      rw [hc]
      rfl
  · intro c0 c1 rest hc hkeys hne
    unfold writeNewMonthTask
    rw [hc, hkeys]
    simp only [Bool.false_eq_true, if_false]
    constructor
    · rw [writeRef_cells_ne _ c1 _ _ _ (by
        rw [getUnmergedCell_merged_eq (writeRef_merged ws c0 (Value.vstr (dateStr u))) c1]
        exact fun hx => hne hx.symm)]
      exact writeRef_cells_eq ws c0 (Value.vstr (dateStr u))
    · have hmg := getUnmergedCell_merged_eq
        (writeRef_merged ws c0 (Value.vstr (dateStr u))) c1
      rw [← hmg]
      exact writeRef_cells_eq _ c1 (Value.vstr (pyUpper u.status))
  · intro c0 c1 rest hc hcols hne
    unfold writeSameMonthTask
    rw [hc, hcols]
    simp only [Bool.false_eq_true, if_false]
    constructor
    · rw [writeRef_cells_ne _ c1 _ _ _ (by
        rw [getUnmergedCell_merged_eq (writeRef_merged ws c0 (Value.vstr (dateStr u))) c1]
        exact fun hx => hne hx.symm)]
      exact writeRef_cells_eq ws c0 (Value.vstr (dateStr u))
    · have hmg := getUnmergedCell_merged_eq
        (writeRef_merged ws c0 (Value.vstr (dateStr u))) c1
      rw [← hmg]
      exact writeRef_cells_eq _ c1 (Value.vstr (pyUpper u.status))

/-- Witness for C5: the comment task is skipped by both passes, and the
two-slot task at B9 and C9 on the empty worksheet receives the date string at
B9 and the uppercased status at C9 in both modes. -/
theorem claim5_write_pass_witness :
    (writeNewMonthTask uA wsEmpty10 taskComment = wsEmpty10 ∧
      writeSameMonthTask uA wsEmpty10 taskComment = wsEmpty10) ∧
    ((writeNewMonthTask uA wsEmpty10 taskB9C9).cells 9 2 = Value.vstr (dateStr uA) ∧
      (writeNewMonthTask uA wsEmpty10 taskB9C9).cells 9 3 = Value.vstr (pyUpper uA.status)) ∧
    ((writeSameMonthTask uA wsEmpty10 taskB9C9).cells 9 2 = Value.vstr (dateStr uA) ∧
      (writeSameMonthTask uA wsEmpty10 taskB9C9).cells 9 3 = Value.vstr (pyUpper uA.status)) := by
  refine ⟨(claim5_write_pass uA wsEmpty10 taskComment).1 (by decide), ?_, ?_⟩
  · exact (claim5_write_pass uA wsEmpty10 taskB9C9).2.1 "B9" "C9" [] (by decide) (by decide)
      (by decide)
  · exact (claim5_write_pass uA wsEmpty10 taskB9C9).2.2 "B9" "C9" [] (by decide) (by decide)
      (by decide)

/-! Sorting and the same-period allocator. -/

theorem charListLe_total : ∀ a b : List Char, charListLe a b = true ∨ charListLe b a = true := by
  intro a
  induction a with
  | nil => intro b; left; rfl
  | cons x xs ih =>
    intro b
    cases b with
    | nil => right; rfl
    | cons y ys =>
      by_cases h1 : x.toNat < y.toNat
      · left
        simp [charListLe, h1]
      · by_cases h2 : y.toNat < x.toNat
        · right
          simp [charListLe, h2]
        · rcases ih ys with h | h
          · left
            simp [charListLe, h1, h2, h]
          · right
            simp [charListLe, h1, h2, h]

theorem strLe_total (a b : String) : strLe a b = true ∨ strLe b a = true :=
  charListLe_total a.data b.data

theorem mem_insertSorted (x y : String) :
    ∀ l : List String, (y ∈ insertSorted x l ↔ y = x ∨ y ∈ l) := by
  intro l
  induction l with
  | nil => simp [insertSorted]
  | cons a l ih =>
    simp only [insertSorted]
    split
    · simp [List.mem_cons]
    · simp only [List.mem_cons, ih]
      tauto

theorem mem_pySorted (y : String) : ∀ l : List String, (y ∈ pySorted l ↔ y ∈ l) := by
  intro l
  induction l with
  | nil => simp [pySorted]
  | cons a l ih =>
    show y ∈ insertSorted a (pySorted l) ↔ _
    rw [mem_insertSorted, ih]
    simp [List.mem_cons]

theorem insertSorted_head? (x : String) (l : List String) :
    (insertSorted x l).head? = some x ∨ (insertSorted x l).head? = l.head? := by
  cases l with
  | nil => left; rfl
  | cons y ys =>
    simp only [insertSorted]
    split
    · left; rfl
    · right; rfl

theorem chain'_insertSorted (x : String) :
    ∀ l : List String, l.Chain' (fun a b => strLe a b = true) →
      (insertSorted x l).Chain' (fun a b => strLe a b = true) := by
  intro l
  induction l with
  | nil => intro _; simp [insertSorted]
  | cons y ys ih =>
    intro hch
    rw [List.chain'_cons'] at hch
    simp only [insertSorted]
    split
    · rename_i hxy
      exact List.chain'_cons'.mpr ⟨fun b hb => by
          rw [List.head?_cons, Option.mem_some_iff] at hb
          rw [← hb]
          exact hxy,
        List.chain'_cons'.mpr hch⟩
    · rename_i hxy
      refine List.chain'_cons'.mpr ⟨?_, ih hch.2⟩
      intro b hb
      rcases insertSorted_head? x ys with hh | hh
      · rw [hh, Option.mem_some_iff] at hb
        rw [← hb]
        rcases strLe_total x y with h | h
        · exact absurd h hxy
        · exact h
      · rw [hh] at hb
        exact hch.1 b hb

theorem chain'_pySorted (l : List String) :
    (pySorted l).Chain' (fun a b => strLe a b = true) := by
  induction l with
  | nil => simp [pySorted]
  | cons a l ih => exact chain'_insertSorted a _ ih

theorem collectEmpty_characterization (ws : Worksheet) :
    ∀ (refs : List String) (acc : List String), acc.length < 2 →
      collectEmpty ws refs acc = (acc ++ refs.filter (isEmptyAt ws)).take 2 := by
  intro refs
  induction refs with
  | nil =>
    intro acc hacc
    show acc = (acc ++ List.filter (isEmptyAt ws) []).take 2
    rw [List.filter_nil, List.append_nil, List.take_of_length_le (Nat.le_of_lt hacc)]
  | cons r rest ih =>
    intro acc hacc
    show (if isEmptyAt ws r = true then
        if (acc ++ [r]).length = 2 then acc ++ [r] else collectEmpty ws rest (acc ++ [r])
      else collectEmpty ws rest acc) = _
    by_cases hemp : isEmptyAt ws r = true
    · rw [if_pos hemp]
      rcases acc with _ | ⟨a, _ | ⟨b, acc2⟩⟩
      · rw [if_neg (by simp)]
        rw [List.nil_append, ih [r] (by simp)]
        simp [List.filter_cons, hemp]
      · rw [if_pos (by simp)]
        simp [List.filter_cons, hemp]
      · exfalso
        simp at hacc
        omega
    · rw [if_neg hemp]
      rw [ih acc hacc]
      have : isEmptyAt ws r = false := by
        simpa using hemp
      simp [List.filter_cons, this]

/-- Claim C2 (amended): the same-period allocator scans the task coordinates
in ascending code-point order (the list is sorted and is a reordering of the
declared coordinates), keeps the first two whose merge-resolved cell is
currently empty, and when none is empty falls back to the first two sorted
coordinates.  The amendment forced by the counterexample: the fallback fires
only when ZERO empty coordinates exist; with exactly one empty coordinate the
allocator returns that single coordinate (and the caller then writes
nothing), not the first two declared coordinates. -/
theorem claim2_allocator (ws : Worksheet) (t : Task) :
    (sortedKeys t).Chain' (fun a b => strLe a b = true) ∧
    (∀ x, x ∈ sortedKeys t ↔ x ∈ t.inputs.map Prod.fst) ∧
    findNextEmptyColumns ws t =
      (if ((sortedKeys t).filter (isEmptyAt ws)).take 2 = [] then (sortedKeys t).take 2
       else ((sortedKeys t).filter (isEmptyAt ws)).take 2) := by
  refine ⟨chain'_pySorted _, fun x => mem_pySorted x _, ?_⟩
  unfold findNextEmptyColumns
  rw [collectEmpty_characterization ws _ [] (by decide)]
  rw [List.nil_append]
  by_cases h : ((sortedKeys t).filter (isEmptyAt ws)).take 2 = []
  · rw [if_pos h, if_pos (by simp [h])]
  · rw [if_neg h, if_neg (by simpa [List.isEmpty_iff] using h)]

/-- Counterexample for C2 as stated: on a worksheet where B9 is filled and C9
empty, the two-coordinate task has exactly one empty coordinate, and the
allocator returns the singleton list, not the first two declared
coordinates. -/
theorem claim2_allocator_cex :
    findNextEmptyColumns wsHalf taskB9C9 = ["C9"] ∧
    (taskB9C9.inputs.map Prod.fst).take 2 = ["B9", "C9"] ∧
    (sortedKeys taskB9C9).take 2 = ["B9", "C9"] := by
  refine ⟨by decide, by decide, by decide⟩

/-! Reset pass characterization. -/

theorem clearStep_merged (k : Nat) (ws : Worksheet) (a : Nat) :
    (if isMergedCellObj ws a k then ws else setCell ws a k Value.vnone).merged = ws.merged := by
  split <;> rfl

theorem clearStep_maxRow (k : Nat) (ws : Worksheet) (a : Nat) :
    (if isMergedCellObj ws a k then ws else setCell ws a k Value.vnone).maxRow = ws.maxRow := by
  split <;> rfl

theorem isMergedCellObj_congr {ws ws2 : Worksheet} (h : ws.merged = ws2.merged) (r c : Nat) :
    isMergedCellObj ws r c = isMergedCellObj ws2 r c := by
  unfold isMergedCellObj
  rw [h]

theorem clearStep_cells (k : Nat) (ws : Worksheet) (a r c : Nat) :
    (if isMergedCellObj ws a k then ws else setCell ws a k Value.vnone).cells r c
      = if r = a ∧ c = k ∧ isMergedCellObj ws a k = false then Value.vnone
        else ws.cells r c := by
  by_cases hma : isMergedCellObj ws a k = false
  · rw [if_neg (by simp [hma]), setCell_cells]
    by_cases hra : r = a
    · by_cases hck : c = k
      · subst hra
        subst hck
        rw [if_pos (by simp), if_pos ⟨rfl, rfl, hma⟩]
      · rw [if_neg (by simp [hck]), if_neg (by tauto)]
    · rw [if_neg (by simp [hra]), if_neg (by tauto)]
  · rw [if_pos (by simpa using hma), if_neg (by tauto)]

theorem clearRows_cells (k : Nat) :
    ∀ (L : List Nat) (ws : Worksheet) (r c : Nat),
      (L.foldl (fun w rr => if isMergedCellObj w rr k then w else setCell w rr k Value.vnone)
          ws).cells r c
        = if r ∈ L ∧ c = k ∧ isMergedCellObj ws r k = false then Value.vnone
          else ws.cells r c := by
  intro L
  induction L with
  | nil =>
    intro ws r c
    simp
  | cons a L ih =>
    intro ws r c
    rw [List.foldl_cons, ih]
    rw [isMergedCellObj_congr (clearStep_merged k ws a) r k]
    rw [clearStep_cells]
    by_cases h1 : r ∈ L ∧ c = k ∧ isMergedCellObj ws r k = false
    · rw [if_pos h1, if_pos ⟨List.mem_cons_of_mem a h1.1, h1.2⟩]
    · rw [if_neg h1]
      by_cases h2 : r = a ∧ c = k ∧ isMergedCellObj ws a k = false
      · obtain ⟨hra, hck, hma⟩ := h2
        subst hra
        rw [if_pos ⟨rfl, hck, hma⟩, if_pos ⟨List.mem_cons_self r L, hck, hma⟩]
      · rw [if_neg h2]
        rw [if_neg (by
          rintro ⟨hmem, hck, hmr⟩
          rcases List.mem_cons.mp hmem with hra | hrl
          · exact h2 ⟨hra, hck, by rw [← hra]; exact hmr⟩
          · exact h1 ⟨hrl, hck, hmr⟩)]

theorem clearColumn_preserve (k : Nat) (ws : Worksheet) :
    (clearColumn ws k).merged = ws.merged ∧ (clearColumn ws k).maxRow = ws.maxRow := by
  unfold clearColumn
  generalize List.range' 9 (ws.maxRow + 1 - 9) = L
  induction L generalizing ws with
  | nil => exact ⟨rfl, rfl⟩
  | cons a L ih =>
    rw [List.foldl_cons]
    refine ⟨(ih _).1.trans (clearStep_merged k ws a), (ih _).2.trans (clearStep_maxRow k ws a)⟩

theorem clearColumn_cells (ws : Worksheet) (k r c : Nat) :
    (clearColumn ws k).cells r c =
      if (9 ≤ r ∧ r ≤ ws.maxRow) ∧ c = k ∧ isMergedCellObj ws r k = false then Value.vnone
      else ws.cells r c := by
  unfold clearColumn
  rw [clearRows_cells]
  have hiff : r ∈ List.range' 9 (ws.maxRow + 1 - 9) ↔ 9 ≤ r ∧ r ≤ ws.maxRow := by
    rw [List.mem_range'_1]
    omega
  by_cases h : (9 ≤ r ∧ r ≤ ws.maxRow) ∧ c = k ∧ isMergedCellObj ws r k = false
  · rw [if_pos ⟨hiff.mpr h.1, h.2⟩, if_pos h]
  · rw [if_neg (fun hx => h ⟨hiff.mp hx.1, hx.2⟩), if_neg h]

theorem clearCols_cells :
    ∀ (l : List Char) (ws : Worksheet) (r c : Nat),
      ((l.foldl (fun w ch => if ch = 'A' then w else clearColumn w (charColIndex ch)) ws).cells
          r c)
        = if (∃ ch ∈ l, ch ≠ 'A' ∧ charColIndex ch = c) ∧ (9 ≤ r ∧ r ≤ ws.maxRow)
             ∧ isMergedCellObj ws r c = false
          then Value.vnone else ws.cells r c := by
  intro l
  induction l with
  | nil =>
    intro ws r c
    simp
  | cons a l ih =>
    intro ws r c
    rw [List.foldl_cons]
    by_cases hA : a = 'A'
    · rw [if_pos hA, ih]
      have hcond : (∃ ch ∈ l, ch ≠ 'A' ∧ charColIndex ch = c)
          ↔ (∃ ch ∈ a :: l, ch ≠ 'A' ∧ charColIndex ch = c) := by
        subst hA
        constructor
        · rintro ⟨ch, h1, h2, h3⟩
          exact ⟨ch, List.mem_cons_of_mem _ h1, h2, h3⟩
        · rintro ⟨ch, h1, h2, h3⟩
          rcases List.mem_cons.mp h1 with he | hm
          · exact absurd he h2
          · exact ⟨ch, hm, h2, h3⟩
      exact if_congr (and_congr_left' hcond) rfl rfl
    · rw [if_neg hA, ih]
      rw [isMergedCellObj_congr (clearColumn_preserve (charColIndex a) ws).1 r c]
      rw [(clearColumn_preserve (charColIndex a) ws).2]
      rw [clearColumn_cells]
      by_cases h1 : (∃ ch ∈ l, ch ≠ 'A' ∧ charColIndex ch = c) ∧ (9 ≤ r ∧ r ≤ ws.maxRow)
          ∧ isMergedCellObj ws r c = false
      · obtain ⟨⟨ch, hmem, hne, hcc⟩, hb, hm⟩ := h1
        rw [if_pos ⟨⟨ch, hmem, hne, hcc⟩, hb, hm⟩]
        rw [if_pos ⟨⟨ch, List.mem_cons_of_mem a hmem, hne, hcc⟩, hb, hm⟩]
      · rw [if_neg h1]
        by_cases h2 : (9 ≤ r ∧ r ≤ ws.maxRow) ∧ c = charColIndex a
            ∧ isMergedCellObj ws r (charColIndex a) = false
        · obtain ⟨hb, hck, hma⟩ := h2
          rw [if_pos ⟨hb, hck, hma⟩]
          rw [if_pos ⟨⟨a, List.mem_cons_self a l, hA, hck.symm⟩, hb, by rw [hck]; exact hma⟩]
        · rw [if_neg h2]
          rw [if_neg (by
            rintro ⟨⟨ch, hmem, hne, hcc⟩, hb, hm⟩
            rcases List.mem_cons.mp hmem with he | hl
            · subst he
              exact h2 ⟨hb, hcc.symm, by rw [← hcc] at hm; exact hm⟩
            · exact h1 ⟨⟨ch, hl, hne, hcc⟩, hb, hm⟩)]

/-- Claim C3 (amended): in new-period mode the reset pass clears exactly the
cells (r, c) with 9 ≤ r ≤ max_row whose column is named by the first character
of some input coordinate of SOME task of the first category of the first
sheet, other than column A, and which openpyxl does not report as non-anchor
members of a merged region; every other cell keeps its value.  The amendment
forced by the counterexample: the representative column set is gathered from
ALL tasks of the first category of the first sheet, not only from its first
task. -/
theorem claim3_reset_pass (data : List SheetData) (ws : Worksheet) (r c : Nat) :
    (clearPrevMonthData data ws).cells r c =
      if (∃ ch ∈ inputColumnChars data, ch ≠ 'A' ∧ charColIndex ch = c) ∧
         (9 ≤ r ∧ r ≤ ws.maxRow) ∧ isMergedCellObj ws r c = false
      then Value.vnone else ws.cells r c := by
  unfold clearPrevMonthData
  exact clearCols_cells (inputColumnChars data) ws r c

/-- Counterexample for C3 as stated: with two tasks of different columns in
the first category (B for the first task, C for the second), the reset pass
clears column C as well, although the first task exposes only column B. -/
theorem claim3_reset_pass_cex :
    claimResetColumns dataSplitCols = ['B'] ∧
    (clearPrevMonthData dataSplitCols wsAllFilled).cells 9 3 = Value.vnone ∧
    wsAllFilled.cells 9 3 = Value.vstr "d" := by
  refine ⟨by decide, by decide, by decide⟩

/-! Frame properties of the write passes. -/

theorem foldl_merged {α : Type} (F : Worksheet → α → Worksheet)
    (hm : ∀ ws a, (F ws a).merged = ws.merged) :
    ∀ (l : List α) (ws : Worksheet), (l.foldl F ws).merged = ws.merged := by
  intro l
  induction l with
  | nil => intro ws; rfl
  | cons a l ih =>
    intro ws
    rw [List.foldl_cons]
    exact (ih _).trans (hm ws a)

theorem foldl_write_frame {α : Type} (F : Worksheet → α → Worksheet) (P : Worksheet → α → Prop)
    (r c : Nat)
    (hm : ∀ ws a, (F ws a).merged = ws.merged)
    (hf : ∀ ws a, P ws a → (F ws a).cells r c = ws.cells r c)
    (hP : ∀ ws ws2 a, ws.merged = ws2.merged → P ws a → P ws2 a) :
    ∀ (l : List α) (ws : Worksheet), (∀ a ∈ l, P ws a) →
      (l.foldl F ws).cells r c = ws.cells r c ∧ (l.foldl F ws).merged = ws.merged := by
  intro l
  induction l with
  | nil =>
    intro ws _
    exact ⟨rfl, rfl⟩
  | cons a l ih =>
    intro ws h
    rw [List.foldl_cons]
    have h1 := hf ws a (h a (List.mem_cons_self a l))
    have hmg := hm ws a
    have ih2 := ih (F ws a)
      (fun x hx => hP ws (F ws a) x hmg.symm (h x (List.mem_cons_of_mem a hx)))
    exact ⟨ih2.1.trans h1, ih2.2.trans hmg⟩

theorem writeNewMonthTask_merged (u : UserSel) (ws : Worksheet) (t : Task) :
    (writeNewMonthTask u ws t).merged = ws.merged := by
  unfold writeNewMonthTask
  split
  · rfl
  · split <;> rfl

theorem writeSameMonthTask_merged (u : UserSel) (ws : Worksheet) (t : Task) :
    (writeSameMonthTask u ws t).merged = ws.merged := by
  unfold writeSameMonthTask
  split
  · rfl
  · split <;> rfl

theorem findNextEmptyColumns_sub (ws : Worksheet) (t : Task) (x : String)
    (hx : x ∈ findNextEmptyColumns ws t) : x ∈ t.inputs.map Prod.fst := by
  unfold findNextEmptyColumns at hx
  rw [collectEmpty_characterization ws _ [] (by decide), List.nil_append] at hx
  have hsorted : x ∈ sortedKeys t → x ∈ t.inputs.map Prod.fst :=
    fun h => (mem_pySorted x _).mp h
  by_cases hc : (((sortedKeys t).filter (isEmptyAt ws)).take 2).isEmpty = true
  · rw [if_pos hc] at hx
    exact hsorted (List.take_subset 2 _ hx)
  · rw [if_neg hc] at hx
    exact hsorted (List.mem_of_mem_filter (List.take_subset 2 _ hx))

theorem writeNewMonthTask_frame (u : UserSel) (ws : Worksheet) (t : Task) (r c : Nat)
    (h : ∀ k ∈ t.inputs.map Prod.fst, getUnmergedCell ws k ≠ (r, c)) :
    (writeNewMonthTask u ws t).cells r c = ws.cells r c := by
  by_cases hcmt : isCommentTask t = true
  · unfold writeNewMonthTask
    rw [if_pos hcmt]
  · unfold writeNewMonthTask
    rw [if_neg hcmt]
    rcases hkeys : sortedKeys t with _ | ⟨c0, _ | ⟨c1, rest⟩⟩
    · rfl
    · rfl
    · show (writeRef (writeRef ws c0 (Value.vstr (dateStr u))) c1
          (Value.vstr (pyUpper u.status))).cells r c = ws.cells r c
      have hc0 : c0 ∈ t.inputs.map Prod.fst := by
        refine (mem_pySorted c0 _).mp ?_
        show c0 ∈ sortedKeys t
        rw [hkeys]
        exact List.mem_cons_self _ _
      have hc1 : c1 ∈ t.inputs.map Prod.fst := by
        refine (mem_pySorted c1 _).mp ?_
        show c1 ∈ sortedKeys t
        rw [hkeys]
        exact List.mem_cons_of_mem _ (List.mem_cons_self _ _)
      rw [writeRef_cells_ne _ c1 _ _ _ (by
        rw [getUnmergedCell_merged_eq (writeRef_merged ws c0 (Value.vstr (dateStr u))) c1]
        exact h c1 hc1)]
      exact writeRef_cells_ne ws c0 _ r c (h c0 hc0)

theorem writeSameMonthTask_frame (u : UserSel) (ws : Worksheet) (t : Task) (r c : Nat)
    (h : ∀ k ∈ t.inputs.map Prod.fst, getUnmergedCell ws k ≠ (r, c)) :
    (writeSameMonthTask u ws t).cells r c = ws.cells r c := by
  by_cases hcmt : isCommentTask t = true
  · unfold writeSameMonthTask
    rw [if_pos hcmt]
  · unfold writeSameMonthTask
    rw [if_neg hcmt]
    rcases hcols : findNextEmptyColumns ws t with _ | ⟨c0, _ | ⟨c1, rest⟩⟩
    · rfl
    · rfl
    · show (writeRef (writeRef ws c0 (Value.vstr (dateStr u))) c1
          (Value.vstr (pyUpper u.status))).cells r c = ws.cells r c
      have hc0 : c0 ∈ t.inputs.map Prod.fst :=
        findNextEmptyColumns_sub ws t c0 (by rw [hcols]; exact List.mem_cons_self _ _)
      have hc1 : c1 ∈ t.inputs.map Prod.fst :=
        findNextEmptyColumns_sub ws t c1
          (by rw [hcols]; exact List.mem_cons_of_mem _ (List.mem_cons_self _ _))
      rw [writeRef_cells_ne _ c1 _ _ _ (by
        rw [getUnmergedCell_merged_eq (writeRef_merged ws c0 (Value.vstr (dateStr u))) c1]
        exact h c1 hc1)]
      exact writeRef_cells_ne ws c0 _ r c (h c0 hc0)

theorem taskAvoids_congr (ws ws2 : Worksheet) (r c : Nat) (t : Task)
    (h : ws.merged = ws2.merged) (ht : TaskAvoids ws r c t) : TaskAvoids ws2 r c t := by
  intro k hk
  rw [← getUnmergedCell_merged_eq h k]
  exact ht k hk

theorem writeSameMonthData_frame (u : UserSel) (ws : Worksheet) (sd : SheetData) (r c : Nat)
    (h : ∀ cat ∈ sd.categories, ∀ t ∈ cat.tasks, TaskAvoids ws r c t) :
    (writeSameMonthData u ws sd).cells r c = ws.cells r c := by
  unfold writeSameMonthData
  refine (foldl_write_frame _ (fun w cat => ∀ t ∈ cat.tasks, TaskAvoids w r c t) r c
    ?_ ?_ ?_ sd.categories ws h).1
  · intro w cat
    exact foldl_merged _ (writeSameMonthTask_merged u) cat.tasks w
  · intro w cat hcat
    exact (foldl_write_frame _ (TaskAvoids · r c) r c (writeSameMonthTask_merged u)
      (fun w2 t ht => writeSameMonthTask_frame u w2 t r c ht)
      (fun w2 w3 t hmg ht => taskAvoids_congr w2 w3 r c t hmg ht) cat.tasks w hcat).1
  · intro w w2 cat hmg hcat t ht
    exact taskAvoids_congr w w2 r c t hmg (hcat t ht)

theorem writeNewMonthData_frame (u : UserSel) (ws : Worksheet) (sd : SheetData) (r c : Nat)
    (h : ∀ cat ∈ sd.categories, ∀ t ∈ cat.tasks, TaskAvoids ws r c t) :
    (writeNewMonthData u ws sd).cells r c = ws.cells r c := by
  unfold writeNewMonthData
  refine (foldl_write_frame _ (fun w cat => ∀ t ∈ cat.tasks, TaskAvoids w r c t) r c
    ?_ ?_ ?_ sd.categories ws h).1
  · intro w cat
    exact foldl_merged _ (writeNewMonthTask_merged u) cat.tasks w
  · intro w cat hcat
    exact (foldl_write_frame _ (TaskAvoids · r c) r c (writeNewMonthTask_merged u)
      (fun w2 t ht => writeNewMonthTask_frame u w2 t r c ht)
      (fun w2 w3 t hmg ht => taskAvoids_congr w2 w3 r c t hmg ht) cat.tasks w hcat).1
  · intro w w2 cat hmg hcat t ht
    exact taskAvoids_congr w w2 r c t hmg (hcat t ht)

/-- Claim C4 (amended): the reset pass never changes any cell in rows 1
through 8 or in column A.  Each write pass changes only cells that are
merge-resolved anchors of some task input coordinate, so a write pass leaves
a cell unchanged whenever no input coordinate of the sheet resolves to it; in
particular, when every anchor lies at row 9 or below in a non-A input column
(as extraction guarantees for well-formed documents), the header block and
column A survive and a same-period rewrite changes nothing outside the
resolved input coordinates.  The amendment forced by the counterexample: the
write passes themselves have no row or column guard, so a task whose
coordinates sit inside rows 1 through 8 or whose merge anchor falls in column
A is written there. -/
theorem claim4_frame (data : List SheetData) (ws : Worksheet) (u : UserSel) (sd : SheetData)
    (r c : Nat) :
    ((r ≤ 8 ∨ c = 1) → (clearPrevMonthData data ws).cells r c = ws.cells r c) ∧
    ((∀ cat ∈ sd.categories, ∀ t ∈ cat.tasks, TaskAvoids ws r c t) →
      (writeSameMonthData u ws sd).cells r c = ws.cells r c ∧
      (writeNewMonthData u ws sd).cells r c = ws.cells r c) := by
  constructor
  · intro hrc
    unfold clearPrevMonthData
    rw [clearCols_cells]
    rw [if_neg (by
      rintro ⟨⟨ch, _, hne, hcc⟩, ⟨h9, _⟩, _⟩
      rcases hrc with hr | hc
      · omega
      · subst hc
        have h65 : ch.toNat = 65 := by
          unfold charColIndex at hcc
          omega
        have : ch = 'A' := by
          have := Char.ofNat_toNat ch
          rw [h65] at this
          exact this.symm
        exact hne this)]
  · intro h
    exact ⟨writeSameMonthData_frame u ws sd r c h, writeNewMonthData_frame u ws sd r c h⟩

/-- Witness for C4: on the concrete workbook, the reset pass leaves the
header cell at row 5 and the column-A cell at row 9 unchanged, and both write
passes leave cell (5, 2) unchanged because no task coordinate of the sheet
resolves there. -/
theorem claim4_frame_witness :
    (clearPrevMonthData dataB9C9 wsOld).cells 5 2 = wsOld.cells 5 2 ∧
    (clearPrevMonthData dataB9C9 wsOld).cells 9 1 = wsOld.cells 9 1 ∧
    (writeSameMonthData uA wsOld (dataB9C9.headD default)).cells 5 2 = wsOld.cells 5 2 ∧
    (writeNewMonthData uA wsOld (dataB9C9.headD default)).cells 5 2 = wsOld.cells 5 2 := by
  refine ⟨(claim4_frame dataB9C9 wsOld uA (dataB9C9.headD default) 5 2).1 (Or.inl (by omega)),
    (claim4_frame dataB9C9 wsOld uA (dataB9C9.headD default) 9 1).1 (Or.inr rfl), ?_, ?_⟩
  · exact ((claim4_frame dataB9C9 wsOld uA (dataB9C9.headD default) 5 2).2 (by decide)).1
  · exact ((claim4_frame dataB9C9 wsOld uA (dataB9C9.headD default) 5 2).2 (by decide)).2

/-- Counterexample for C4 as stated: a task whose input coordinates are B5
and C5 makes the new-period write pass write the author-and-date string into
cell (5, 2), inside rows 1 through 8. -/
theorem claim4_frame_cex :
    (writeNewMonthData uA wsEmpty10 sdRow5).cells 5 2 = Value.vstr (dateStr uA) ∧
    wsEmpty10.cells 5 2 = Value.vnone ∧ Value.vstr (dateStr uA) ≠ Value.vnone := by
  refine ⟨by decide, by decide, by decide⟩

/-! Row classification. -/

/-- Claim C8 (amended): the row handler is exactly the two-phase
classify-then-apply step built from the stated priority list, with one
amendment forced by the counterexample: priority (a) fires on a falsy
lead-cell VALUE (`if not first_cell.value`: None, empty string, numeric zero,
False), not on empty lead-cell text; then category color with bold opens a new
category (closing any open one), bold alone appends a task to the open
category, non-bold text extends the last task description when the open
category has at least one task, and anything else, including a task header or
description line before any category header, leaves the state unchanged. -/
theorem claim8_row_classification (st : ParseState) (lead : LeadCell)
    (inputs : List (String × String)) :
    processRow st lead inputs = claimStep st lead inputs := by
  rcases st with ⟨cur, closed⟩
  unfold processRow claimStep claimClassify
  by_cases hfalsy : lead.value.falsy = true
  · simp [hfalsy]
  · by_cases hcat : (lead.fill = CATEGORY_COLOR && lead.bold) = true
    · rcases cur with _ | cat <;> simp [hfalsy, hcat]
    · by_cases hbold : lead.bold = true
      · have hfill : ¬ lead.fill = CATEGORY_COLOR := by
          intro hf
          exact hcat (by simp [hf, hbold])
        rcases cur with _ | cat <;> simp [hfalsy, hcat, hbold, hfill]
      · rcases cur with _ | cat
        · simp [hfalsy, hcat, hbold]
        · by_cases hemp : cat.tasks.isEmpty = true
          · simp [hfalsy, hcat, hbold, hemp]
          · simp [hfalsy, hcat, hbold, hemp]

/-- Counterexample for C8 as stated: a bold lead cell with the category
highlight containing the numeric value 0 has nonempty text "0", so the stated
rule classifies it as a category header, yet the code ignores the row
(`if not first_cell.value` fires on the falsy value 0) and the state is
unchanged. -/
theorem claim8_row_classification_cex :
    processRow ⟨some ⟨"Cat", [⟨"T", "", []⟩]⟩, []⟩ ⟨Value.vint 0, CATEGORY_COLOR, true⟩ []
        = ⟨some ⟨"Cat", [⟨"T", "", []⟩]⟩, []⟩ ∧
    claimClassifyStated ⟨Value.vint 0, CATEGORY_COLOR, true⟩ true = RowRole.categoryHeader := by
  refine ⟨by decide, by decide⟩

end IMS
